import Mathlib

/-!
Shallow embedding of the CIFAR-10 training notebook
(`CIFAR10-checkpoint.ipynb`, functions `train_model` and `test_model`).

Modelling choices:
* an image batch is a list of (image, integer label) pairs; a data feed
  (PyTorch dataloader) is a finite list of batches, restarted from the
  beginning each time it is iterated;
* the network is an abstract scoring function `net : P → I → List ℚ`
  mapping the current parameter set and one image to per-class scores
  (`torch.max(prediction, 1)[1]` becomes the index of the first maximal
  score);
* the mutable model object is a record of its parameter set (the
  `state_dict`, covering weights and running statistics), its accumulated
  gradients, and its train/eval mode flag;
* the combined effect of one training batch (`loss.backward()` followed by
  `optimizer.step()`, under the learning-rate schedule) is an abstract
  function `step : Nat → P → Batch I → P × G` of the epoch index, the
  current parameters and the batch, returning new parameters and the
  gradients left behind; `optimizer.zero_grad()` resets the gradients to
  an abstract zero value `zeroG`;
* Python floats are modelled by ℚ; Python `%` on `check_point = 0` raises
  `ZeroDivisionError`, modelled by `pymod` returning `none`;
* the TensorBoard metrics sink (`SummaryWriter`) is an external write-only
  collaborator and is not modelled; every other observable action of
  `train_model` (feed iterations, gradient clearing, optimizer steps,
  checkpoint writes) is recorded in an event trace, and the values of the
  tracked `best_accuracy` / `best_model` variables are recorded after the
  baseline evaluation and after each validation phase.
-/

namespace CIFAR10

/-- Train/eval mode flag of a model (`model.train()` / `model.eval()`). -/
inductive Mode where
  | train
  | eval
deriving DecidableEq, Repr

/-- The two phases of an epoch, `for phase in ['train', 'validation']`. -/
inductive Phase where
  | train
  | validation
deriving DecidableEq, Repr

/-- One mini-batch: a list of (image, label) items. -/
abbrev Batch (I : Type) := List (I × Nat)

/-- A data feed (dataloader): a finite list of batches per pass. -/
abbrev Feed (I : Type) := List (Batch I)

/-- Mutable model object: parameter set (state_dict), accumulated
gradients, and mode flag. -/
structure ModelState (P G : Type) where
  params : P
  grads : G
  mode : Mode
deriving DecidableEq, Repr

/-- Index of the first maximal entry of a score list
(`torch.max(prediction, 1)[1]` for one image). -/
def argmaxIdx (l : List ℚ) : Nat :=
  (List.range l.length).foldl
    (fun best i => if l.getD best 0 < l.getD i 0 then i else best) 0

/-- One item is classified correctly when the top-1 predicted class equals
its label. -/
def itemCorrect {P I : Type} (net : P → I → List ℚ) (p : P) (it : I × Nat) : Bool :=
  argmaxIdx (net p it.1) = it.2

/-- Number of correct top-1 predictions in one batch
(`torch.sum(torch.max(prediction, 1)[1] == label.data).item()`). -/
def batchCorrect {P I : Type} (net : P → I → List ℚ) (p : P) (b : Batch I) : Nat :=
  b.countP (itemCorrect net p)

/-- Configuration record of a training run: the `params` dict passed to
`train_model` / `test_model`. Feeds carry their dataset sizes
(`len(params[phase+'_loader'].dataset)`). The learning-rate, weight-decay,
milestone and device entries are carried for completeness; their effect on
parameter updates is absorbed by the abstract `step` function. -/
structure TrainParams (I : Type) where
  description : String
  num_epochs : Nat
  reduce_learning_rate : List Nat
  learning_rate : ℚ
  weight_decay : ℚ
  check_point : Nat
  device : String
  state_dict_path : String
  train_loader : Feed I
  validation_loader : Feed I
  train_dataset_len : Nat
  validation_dataset_len : Nat

/-- Embedding of `test_model(model, params)`: move the model to the device
and set eval mode, iterate once over the validation loader accumulating
correct top-1 counts under `torch.no_grad()`, and divide by the dataset
size. Returns the accuracy together with the model object as left behind
by the call. -/
def test_model {P G I : Type} (net : P → I → List ℚ) (cfg : TrainParams I)
    (m : ModelState P G) : ℚ × ModelState P G :=
  let m := { m with mode := Mode.eval }
  let acc : Nat := cfg.validation_loader.foldl (fun c b => c + batchCorrect net m.params b) 0
  ((acc : ℚ) / (cfg.validation_dataset_len : ℚ), m)

/-- Observable events of a `train_model` run, in chronological order. -/
inductive Ev (P : Type) where
  /-- a complete iteration over the training loader -/
  | trainFeedPass
  /-- a complete iteration over the validation loader -/
  | valFeedPass
  /-- one `optimizer.zero_grad()` call, tagged with the phase it happens in -/
  | zeroGrad (phase : Phase)
  /-- one `optimizer.step()` call -/
  | optStep
  /-- one `torch.save(best_model, path)` call at epoch `e` writing snapshot `snap` -/
  | checkpoint (e : Nat) (path : String) (snap : P)
deriving DecidableEq, Repr

/-- Python `a % b`: raises `ZeroDivisionError` when `b = 0`. -/
def pymod (a b : Nat) : Option Nat :=
  if b = 0 then none else some (a % b)

/-- The only error `train_model` can raise in this embedding:
`ZeroDivisionError` from `epoch % params['check_point']`. -/
inductive TrainError where
  | modByZero
deriving DecidableEq, Repr

/-- State of a `train_model` run: the model object, the tracked
`best_accuracy` and `best_model` variables, the event trace so far, the
recorded values of `(best_accuracy, best_model)` after the baseline and
after each validation phase (`bestHist`), the measured validation-phase
accuracy together with the model parameters at each validation phase
(`valPhases`), and a pending uncaught exception. -/
structure TState (P G : Type) where
  model : ModelState P G
  best_accuracy : ℚ
  best_model : P
  events : List (Ev P)
  bestHist : List (ℚ × P)
  valPhases : List (ℚ × P)
  error : Option TrainError
deriving Repr

/-- Model-state effect of the training phase of one epoch: for each batch,
`optimizer.zero_grad()`, forward/backward, `optimizer.step()`; the batch
updates the parameters via `step` and leaves behind that batch's
gradients. `model.train()` was set before the iteration. -/
def trainPhaseModel {P G I : Type} (step : Nat → P → Batch I → P × G) (e : Nat)
    (feed : Feed I) (m : ModelState P G) (zeroG : G) : ModelState P G :=
  feed.foldl
    (fun m b =>
      let m := { m with grads := zeroG }
      let pg := step e m.params b
      { m with params := pg.1, grads := pg.2 })
    { m with mode := Mode.train }

/-- Events emitted by the training phase of one epoch: per batch one
gradient clearing and one optimizer step, then the completed pass. -/
def trainPhaseEvents {P I : Type} : Feed I → List (Ev P)
  | [] => [Ev.trainFeedPass]
  | _ :: bs => Ev.zeroGrad Phase.train :: Ev.optStep :: trainPhaseEvents bs

/-- Model-state effect of the validation phase of one epoch:
`model.eval()`, then for each batch `optimizer.zero_grad()` (issued
unconditionally by the loop body); the forward pass runs under
`torch.set_grad_enabled(False)` and parameters are not updated. -/
def valPhaseModel {P G I : Type} (feed : Feed I) (m : ModelState P G) (zeroG : G) :
    ModelState P G :=
  feed.foldl (fun m _ => { m with grads := zeroG }) { m with mode := Mode.eval }

/-- Events emitted by the validation phase of one epoch: per batch one
gradient clearing, then the completed pass. -/
def valPhaseEvents {P I : Type} : Feed I → List (Ev P)
  | [] => [Ev.valFeedPass]
  | _ :: bs => Ev.zeroGrad Phase.validation :: valPhaseEvents bs

/-- Normalized validation accuracy of a parameter set: accumulated correct
count over the validation loader divided by the dataset size. -/
def valAcc {P I : Type} (net : P → I → List ℚ) (cfg : TrainParams I) (p : P) : ℚ :=
  ((cfg.validation_loader.foldl (fun c b => c + batchCorrect net p b) 0 : Nat) : ℚ) /
    (cfg.validation_dataset_len : ℚ)

/-- Checkpoint file path of a run:
`params['state_dict_path'] + params['description'] + '.pt'`. -/
def ckptPath {I : Type} (cfg : TrainParams I) : String :=
  cfg.state_dict_path ++ cfg.description ++ ".pt"

/-- The best-tracking update performed at the end of a validation phase:
`if phase == 'validation' and logs['Accuracy'] > best_accuracy:
best_accuracy = logs['Accuracy']; best_model = copy.deepcopy(model.state_dict())`,
as a function of the previous `(best_accuracy, best_model)` pair, the
measured accuracy and the current parameters. -/
def bestUpd {P : Type} (best : ℚ × P) (acc : ℚ) (q : P) : ℚ × P :=
  if best.1 < acc then (acc, q) else best

/-- Training and validation phases of one epoch plus the best-tracking
update: scheduler step (absorbed into `step`), training phase, validation
phase, then
`if phase == 'validation' and logs['Accuracy'] > best_accuracy: ...`. -/
def epochCore {P G I : Type} (net : P → I → List ℚ) (step : Nat → P → Batch I → P × G)
    (zeroG : G) (cfg : TrainParams I) (e : Nat) (st : TState P G) : TState P G :=
  let m2 := valPhaseModel cfg.validation_loader
    (trainPhaseModel step e cfg.train_loader st.model zeroG) zeroG
  let acc := valAcc net cfg m2.params
  let best := bestUpd (st.best_accuracy, st.best_model) acc m2.params
  { st with
    model := m2
    best_accuracy := best.1
    best_model := best.2
    events := st.events ++ trainPhaseEvents cfg.train_loader ++
      valPhaseEvents cfg.validation_loader
    bestHist := st.bestHist ++ [best]
    valPhases := st.valPhases ++ [(acc, m2.params)] }

/-- Body of one iteration of `for epoch in pbar(range(params['num_epochs']))`:
the two phases and the best update (`epochCore`), then the checkpoint
condition `epoch % params['check_point'] == 0 or epoch == params['num_epochs']-1`;
evaluating `%` with a zero checkpoint interval raises before any write. -/
def epochStep {P G I : Type} (net : P → I → List ℚ) (step : Nat → P → Batch I → P × G)
    (zeroG : G) (cfg : TrainParams I) (e : Nat) (st : TState P G) : TState P G :=
  let st' := epochCore net step zeroG cfg e st
  match pymod e cfg.check_point with
  | none => { st' with error := some TrainError.modByZero }
  | some r =>
    if r = 0 ∨ e = cfg.num_epochs - 1 then
      { st' with events := st'.events ++ [Ev.checkpoint e (ckptPath cfg) st'.best_model] }
    else st'

/-- The epoch loop: run `n` further epochs starting at epoch index `a`,
stopping when an exception is raised. -/
def runEpochs {P G I : Type} (net : P → I → List ℚ) (step : Nat → P → Batch I → P × G)
    (zeroG : G) (cfg : TrainParams I) : Nat → Nat → TState P G → TState P G
  | _, 0, st => st
  | a, n + 1, st =>
    let st' := epochStep net step zeroG cfg a st
    match st'.error with
    | some _ => st'
    | none => runEpochs net step zeroG cfg (a + 1) n st'

/-- Embedding of `train_model(model, params)`: baseline evaluation via
`test_model`, initial deep copy of the state_dict into `best_model`, the
epoch loop, and (when no exception occurred) the final `test_model`
evaluation. The SummaryWriter calls are not modelled. Returns the final
run state, trace included. -/
def train_model {P G I : Type} (net : P → I → List ℚ) (step : Nat → P → Batch I → P × G)
    (zeroG : G) (m0 : ModelState P G) (cfg : TrainParams I) : TState P G :=
  let r0 := test_model net cfg m0
  let st0 : TState P G :=
    { model := r0.2
      best_accuracy := r0.1
      best_model := r0.2.params
      events := [Ev.valFeedPass]
      bestHist := [(r0.1, r0.2.params)]
      valPhases := []
      error := none }
  let st := runEpochs net step zeroG cfg 0 cfg.num_epochs st0
  match st.error with
  | some _ => st
  | none =>
    let r1 := test_model net cfg st.model
    { st with model := r1.2, events := st.events ++ [Ev.valFeedPass] }

/-- The run state of `train_model` right after the baseline evaluation
`best_accuracy = test_model(model, params)` and the initial deep copy
`best_model = copy.deepcopy(model.state_dict())`. -/
def initState {P G I : Type} (net : P → I → List ℚ) (cfg : TrainParams I)
    (m0 : ModelState P G) : TState P G :=
  { model := (test_model net cfg m0).2
    best_accuracy := (test_model net cfg m0).1
    best_model := (test_model net cfg m0).2.params
    events := [Ev.valFeedPass]
    bestHist := [((test_model net cfg m0).1, (test_model net cfg m0).2.params)]
    valPhases := []
    error := none }

/-- Recognizer for a completed training-feed pass event. -/
def isTrainPass {P : Type} : Ev P → Bool
  | Ev.trainFeedPass => true
  | _ => false

/-- Recognizer for a completed validation-feed pass event. -/
def isValPass {P : Type} : Ev P → Bool
  | Ev.valFeedPass => true
  | _ => false

/-- Recognizer for an optimizer-step event. -/
def isOptStep {P : Type} : Ev P → Bool
  | Ev.optStep => true
  | _ => false

/-- Recognizer for a gradient-clearing event in a given phase. -/
def isZeroGrad {P : Type} (ph : Phase) : Ev P → Bool
  | Ev.zeroGrad q => decide (q = ph)
  | _ => false

/-- Recognizer for a checkpoint-write event. -/
def isCheckpointEv {P : Type} : Ev P → Bool
  | Ev.checkpoint _ _ _ => true
  | _ => false

/-- Data of a checkpoint-write event: epoch index, file path, snapshot. -/
def ckptData? {P : Type} : Ev P → Option (Nat × String × P)
  | Ev.checkpoint e path snap => some (e, path, snap)
  | _ => none

/-- The checkpoint writes recorded in a trace, in order. -/
def ckpts {P : Type} (evs : List (Ev P)) : List (Nat × String × P) :=
  evs.filterMap ckptData?

/-- Run-state invariant tying the tracked `best_accuracy` / `best_model`
variables to the recorded history: the last recorded pair is the current
one; the recorded best accuracies never decrease; every recorded pair and
every validation measurement pairs a parameter set with its own validation
accuracy; and each recorded pair arises from the previous one by the
strict-improvement update rule of the source. -/
def RunInv {P G I : Type} (net : P → I → List ℚ) (cfg : TrainParams I)
    (st : TState P G) : Prop :=
  st.bestHist.getLast? = some (st.best_accuracy, st.best_model) ∧
  List.Chain' (fun x y : ℚ × P => x.1 ≤ y.1) st.bestHist ∧
  (∀ x ∈ st.bestHist, valAcc net cfg x.2 = x.1) ∧
  (∀ x ∈ st.valPhases, valAcc net cfg x.2 = x.1) ∧
  st.bestHist.length = st.valPhases.length + 1 ∧
  (∀ i b b' v, st.bestHist[i]? = some b → st.bestHist[i + 1]? = some b' →
    st.valPhases[i]? = some v → b' = if b.1 < v.1 then v else b)

/-- A recorded checkpoint write is well-formed for a run state: it targets
the single per-run path and its snapshot is the best-model value recorded
at the end of its epoch. -/
def ckptGood {P G I : Type} (cfg : TrainParams I) (st : TState P G)
    (x : Nat × String × P) : Prop :=
  x.2.1 = ckptPath cfg ∧ ∃ b, st.bestHist[x.1 + 1]? = some (b, x.2.2)

/-- Concrete network for witnesses: every image gets score list `[1]`, so
the top-1 prediction is always class 0. -/
def cNet : ℤ → ℕ → List ℚ := fun _ _ => [1]

/-- Concrete training-batch effect for witnesses: increment the parameter. -/
def cStep : Nat → ℤ → Batch ℕ → ℤ × Unit := fun _ p _ => (p + 1, ())

/-- Concrete batch of 4 images with labels `[0, 0, 1, 1]`. -/
def cBatch : Batch ℕ := [(0, 0), (1, 0), (2, 1), (3, 1)]

/-- Concrete run configuration for witnesses: one epoch, checkpoint
interval 1, one batch of four items in each feed. -/
def cCfg : TrainParams ℕ :=
  { description := "densenet161"
    num_epochs := 1
    reduce_learning_rate := [200, 400]
    learning_rate := 5 / 100
    weight_decay := 1 / 1000
    check_point := 1
    device := "cpu"
    state_dict_path := "trained_models/"
    train_loader := [cBatch]
    validation_loader := [cBatch]
    train_dataset_len := 4
    validation_dataset_len := 4 }

/-- Concrete model in training mode for witnesses. -/
def cModel : ModelState ℤ Unit :=
  { params := 0, grads := (), mode := Mode.train }

/-! ### Counting lemmas for per-phase event lists -/

theorem trainPhaseEvents_countP {P I : Type} (p : Ev P → Bool) (feed : Feed I) :
    (trainPhaseEvents (P := P) feed).countP p =
      (if p Ev.trainFeedPass then 1 else 0) +
        feed.length * ((if p (Ev.zeroGrad Phase.train) then 1 else 0) +
          (if p Ev.optStep then 1 else 0)) := by
  induction feed with
  | nil => simp [trainPhaseEvents, List.countP_cons, List.countP_nil]
  | cons b bs ih =>
    simp only [trainPhaseEvents, List.countP_cons, ih, List.length_cons]
    ring

theorem valPhaseEvents_countP {P I : Type} (p : Ev P → Bool) (feed : Feed I) :
    (valPhaseEvents (P := P) feed).countP p =
      (if p Ev.valFeedPass then 1 else 0) +
        feed.length * (if p (Ev.zeroGrad Phase.validation) then 1 else 0) := by
  induction feed with
  | nil => simp [valPhaseEvents, List.countP_cons, List.countP_nil]
  | cons b bs ih =>
    simp only [valPhaseEvents, List.countP_cons, ih, List.length_cons]
    ring

theorem ckpts_append {P : Type} (l₁ l₂ : List (Ev P)) :
    ckpts (l₁ ++ l₂) = ckpts l₁ ++ ckpts l₂ :=
  List.filterMap_append l₁ l₂ ckptData?

theorem ckpts_trainPhaseEvents {P I : Type} (feed : Feed I) :
    (trainPhaseEvents (P := P) feed).filterMap ckptData? = [] := by
  induction feed with
  | nil => simp [trainPhaseEvents, ckpts, ckptData?]
  | cons b bs ih => simp [trainPhaseEvents, ckpts, ckptData?] at ih ⊢; exact ih

theorem ckpts_valPhaseEvents {P I : Type} (feed : Feed I) :
    (valPhaseEvents (P := P) feed).filterMap ckptData? = [] := by
  induction feed with
  | nil => simp [valPhaseEvents, ckpts, ckptData?]
  | cons b bs ih => simp [valPhaseEvents, ckpts, ckptData?] at ih ⊢; exact ih

/-! ### Field lemmas for one epoch -/

theorem epochStep_best_accuracy {P G I : Type} (net : P → I → List ℚ)
    (step : Nat → P → Batch I → P × G) (zeroG : G) (cfg : TrainParams I) (e : Nat)
    (st : TState P G) :
    (epochStep net step zeroG cfg e st).best_accuracy =
      (epochCore net step zeroG cfg e st).best_accuracy := by
  unfold epochStep
  split
  · rfl
  · split <;> rfl

theorem epochStep_best_model {P G I : Type} (net : P → I → List ℚ)
    (step : Nat → P → Batch I → P × G) (zeroG : G) (cfg : TrainParams I) (e : Nat)
    (st : TState P G) :
    (epochStep net step zeroG cfg e st).best_model =
      (epochCore net step zeroG cfg e st).best_model := by
  unfold epochStep
  split
  · rfl
  · split <;> rfl

theorem epochStep_bestHist {P G I : Type} (net : P → I → List ℚ)
    (step : Nat → P → Batch I → P × G) (zeroG : G) (cfg : TrainParams I) (e : Nat)
    (st : TState P G) :
    (epochStep net step zeroG cfg e st).bestHist =
      (epochCore net step zeroG cfg e st).bestHist := by
  unfold epochStep
  split
  · rfl
  · split <;> rfl

theorem epochStep_valPhases {P G I : Type} (net : P → I → List ℚ)
    (step : Nat → P → Batch I → P × G) (zeroG : G) (cfg : TrainParams I) (e : Nat)
    (st : TState P G) :
    (epochStep net step zeroG cfg e st).valPhases =
      (epochCore net step zeroG cfg e st).valPhases := by
  unfold epochStep
  split
  · rfl
  · split <;> rfl

theorem epochStep_error_of_ne {P G I : Type} (net : P → I → List ℚ)
    (step : Nat → P → Batch I → P × G) (zeroG : G) (cfg : TrainParams I)
    (hc : cfg.check_point ≠ 0) (e : Nat) (st : TState P G) :
    (epochStep net step zeroG cfg e st).error = st.error := by
  unfold epochStep
  split
  · next heq => simp [pymod, hc] at heq
  · split <;> rfl

theorem epochStep_error_of_zero {P G I : Type} (net : P → I → List ℚ)
    (step : Nat → P → Batch I → P × G) (zeroG : G) (cfg : TrainParams I)
    (hc : cfg.check_point = 0) (e : Nat) (st : TState P G) :
    (epochStep net step zeroG cfg e st).error = some TrainError.modByZero := by
  unfold epochStep
  split
  · rfl
  · next heq => simp [pymod, hc] at heq

theorem epochStep_events_of_zero {P G I : Type} (net : P → I → List ℚ)
    (step : Nat → P → Batch I → P × G) (zeroG : G) (cfg : TrainParams I)
    (hc : cfg.check_point = 0) (e : Nat) (st : TState P G) :
    (epochStep net step zeroG cfg e st).events =
      st.events ++ trainPhaseEvents cfg.train_loader ++
        valPhaseEvents cfg.validation_loader := by
  unfold epochStep
  split
  · rfl
  · next heq => simp [pymod, hc] at heq

theorem epochStep_countP {P G I : Type} (net : P → I → List ℚ)
    (step : Nat → P → Batch I → P × G) (zeroG : G) (cfg : TrainParams I)
    (p : Ev P → Bool) (hp : ∀ e path s, p (Ev.checkpoint e path s) = false)
    (e : Nat) (st : TState P G) :
    (epochStep net step zeroG cfg e st).events.countP p =
      st.events.countP p + (trainPhaseEvents (P := P) cfg.train_loader).countP p +
        (valPhaseEvents (P := P) cfg.validation_loader).countP p := by
  unfold epochStep
  split
  · simp [epochCore, List.countP_append]
    omega
  · split
    · simp [epochCore, List.countP_append, hp]
      omega
    · simp [epochCore, List.countP_append]
      omega

theorem epochStep_ckpts {P G I : Type} (net : P → I → List ℚ)
    (step : Nat → P → Batch I → P × G) (zeroG : G) (cfg : TrainParams I)
    (hc : cfg.check_point ≠ 0) (e : Nat) (st : TState P G) :
    ckpts (epochStep net step zeroG cfg e st).events =
      ckpts st.events ++
        (if e % cfg.check_point = 0 ∨ e = cfg.num_epochs - 1 then
          [(e, ckptPath cfg, (epochCore net step zeroG cfg e st).best_model)] else []) := by
  unfold epochStep
  split
  · next heq => simp [pymod, hc] at heq
  · next r heq =>
    have hr : r = e % cfg.check_point := by
      simp [pymod, hc] at heq
      omega
    subst hr
    split
    · next hcond =>
      simp [ckpts_append, ckpts_trainPhaseEvents, ckpts_valPhaseEvents, ckpts, ckptData?,
        epochCore]
    · next hcond =>
      simp [ckpts_append, ckpts_trainPhaseEvents, ckpts_valPhaseEvents, ckpts, epochCore]

/-! ### The epoch loop -/

theorem runEpochs_succ_of_none {P G I : Type} (net : P → I → List ℚ)
    (step : Nat → P → Batch I → P × G) (zeroG : G) (cfg : TrainParams I)
    (a n : Nat) (st : TState P G)
    (h : (epochStep net step zeroG cfg a st).error = none) :
    runEpochs net step zeroG cfg a (n + 1) st =
      runEpochs net step zeroG cfg (a + 1) n (epochStep net step zeroG cfg a st) := by
  rw [runEpochs, h]

theorem runEpochs_succ_of_some {P G I : Type} (net : P → I → List ℚ)
    (step : Nat → P → Batch I → P × G) (zeroG : G) (cfg : TrainParams I)
    (a n : Nat) (st : TState P G) (err : TrainError)
    (h : (epochStep net step zeroG cfg a st).error = some err) :
    runEpochs net step zeroG cfg a (n + 1) st = epochStep net step zeroG cfg a st := by
  rw [runEpochs, h]

theorem runEpochs_error {P G I : Type} (net : P → I → List ℚ)
    (step : Nat → P → Batch I → P × G) (zeroG : G) (cfg : TrainParams I)
    (hc : cfg.check_point ≠ 0) :
    ∀ n a (st : TState P G), st.error = none →
      (runEpochs net step zeroG cfg a n st).error = none := by
  intro n
  induction n with
  | zero => intro a st h; simpa [runEpochs] using h
  | succ n ih =>
    intro a st h
    have herr : (epochStep net step zeroG cfg a st).error = none := by
      rw [epochStep_error_of_ne net step zeroG cfg hc a st, h]
    rw [runEpochs_succ_of_none net step zeroG cfg a n st herr]
    exact ih (a + 1) _ herr

theorem runEpochs_countP {P G I : Type} (net : P → I → List ℚ)
    (step : Nat → P → Batch I → P × G) (zeroG : G) (cfg : TrainParams I)
    (hc : cfg.check_point ≠ 0) (p : Ev P → Bool)
    (hp : ∀ e path s, p (Ev.checkpoint e path s) = false) :
    ∀ n a (st : TState P G), st.error = none →
      (runEpochs net step zeroG cfg a n st).events.countP p =
        st.events.countP p +
          n * ((trainPhaseEvents (P := P) cfg.train_loader).countP p +
            (valPhaseEvents (P := P) cfg.validation_loader).countP p) := by
  intro n
  induction n with
  | zero => intro a st h; simp [runEpochs]
  | succ n ih =>
    intro a st h
    have herr : (epochStep net step zeroG cfg a st).error = none := by
      rw [epochStep_error_of_ne net step zeroG cfg hc a st, h]
    rw [runEpochs_succ_of_none net step zeroG cfg a n st herr,
      ih (a + 1) _ herr, epochStep_countP net step zeroG cfg p hp a st]
    ring

/-! ### Whole-run lemmas -/

theorem train_model_eq {P G I : Type} (net : P → I → List ℚ)
    (step : Nat → P → Batch I → P × G) (zeroG : G) (m0 : ModelState P G)
    (cfg : TrainParams I) :
    train_model net step zeroG m0 cfg =
      (match (runEpochs net step zeroG cfg 0 cfg.num_epochs (initState net cfg m0)).error with
       | some _ => runEpochs net step zeroG cfg 0 cfg.num_epochs (initState net cfg m0)
       | none =>
         { runEpochs net step zeroG cfg 0 cfg.num_epochs (initState net cfg m0) with
           model := (test_model net cfg
             (runEpochs net step zeroG cfg 0 cfg.num_epochs (initState net cfg m0)).model).2
           events := (runEpochs net step zeroG cfg 0 cfg.num_epochs
             (initState net cfg m0)).events ++ [Ev.valFeedPass] }) := rfl

theorem train_model_error_of_ne {P G I : Type} (net : P → I → List ℚ)
    (step : Nat → P → Batch I → P × G) (zeroG : G) (m0 : ModelState P G)
    (cfg : TrainParams I) (hc : cfg.check_point ≠ 0) :
    (train_model net step zeroG m0 cfg).error = none := by
  have herr := runEpochs_error net step zeroG cfg hc cfg.num_epochs 0
    (initState net cfg m0) rfl
  rw [train_model_eq, herr]
  exact herr

theorem train_model_countP {P G I : Type} (net : P → I → List ℚ)
    (step : Nat → P → Batch I → P × G) (zeroG : G) (m0 : ModelState P G)
    (cfg : TrainParams I) (hc : cfg.check_point ≠ 0) (p : Ev P → Bool)
    (hp : ∀ e path s, p (Ev.checkpoint e path s) = false) :
    (train_model net step zeroG m0 cfg).events.countP p =
      2 * (if p Ev.valFeedPass then 1 else 0) +
        cfg.num_epochs * ((trainPhaseEvents (P := P) cfg.train_loader).countP p +
          (valPhaseEvents (P := P) cfg.validation_loader).countP p) := by
  have herr := runEpochs_error net step zeroG cfg hc cfg.num_epochs 0
    (initState net cfg m0) rfl
  have hcnt := runEpochs_countP net step zeroG cfg hc p hp cfg.num_epochs 0
    (initState net cfg m0) rfl
  rw [train_model_eq, herr]
  show ((runEpochs net step zeroG cfg 0 cfg.num_epochs (initState net cfg m0)).events ++
    [Ev.valFeedPass]).countP p = _
  rw [List.countP_append, hcnt]
  simp [initState, List.countP_cons]
  cases hpv : p Ev.valFeedPass <;> simp [hpv] <;> ring

/-! ### Claim C1 -/

/-- C1, counterexample: with epoch count 0 the run writes no checkpoint
file at all (the write sits inside the epoch loop), so "exactly one
checkpoint file" fails at this concrete input. -/
theorem c1_counterexample_no_checkpoint_at_zero_epochs :
    ¬ ((train_model cNet cStep () cModel
      { cCfg with num_epochs := 0 }).events.countP isCheckpointEv = 1) := by
  decide

/-- C1 (amended): for a run configured with epoch count 0, `train_model`
performs the baseline evaluation pass over the validation feed (and the
final one), writes no checkpoint file, performs no optimizer step, and
returns without error. -/
theorem c1_zero_epochs_run {P G I : Type} (net : P → I → List ℚ)
    (step : Nat → P → Batch I → P × G) (zeroG : G) (m0 : ModelState P G)
    (cfg : TrainParams I) (hE : cfg.num_epochs = 0) :
    (train_model net step zeroG m0 cfg).events = [Ev.valFeedPass, Ev.valFeedPass] ∧
    (train_model net step zeroG m0 cfg).events.countP isCheckpointEv = 0 ∧
    (train_model net step zeroG m0 cfg).events.countP isOptStep = 0 ∧
    (train_model net step zeroG m0 cfg).error = none := by
  have hev : (train_model net step zeroG m0 cfg).events =
      [Ev.valFeedPass, Ev.valFeedPass] := by
    rw [train_model_eq, hE]
    rfl
  refine ⟨hev, ?_, ?_, ?_⟩
  · rw [hev]
    rfl
  · rw [hev]
    rfl
  · rw [train_model_eq, hE]
    rfl

/-- C1, witness: the amended statement at a concrete zero-epoch run. -/
theorem c1_zero_epochs_run_witness :
    (train_model cNet cStep () cModel { cCfg with num_epochs := 0 }).events =
      [Ev.valFeedPass, Ev.valFeedPass] ∧
    (train_model cNet cStep () cModel
      { cCfg with num_epochs := 0 }).events.countP isCheckpointEv = 0 ∧
    (train_model cNet cStep () cModel
      { cCfg with num_epochs := 0 }).events.countP isOptStep = 0 ∧
    (train_model cNet cStep () cModel { cCfg with num_epochs := 0 }).error = none :=
  c1_zero_epochs_run cNet cStep () cModel { cCfg with num_epochs := 0 } rfl

/-! ### Claim C6 -/

/-- C6, counterexample: in a concrete one-epoch run with one validation
batch, a gradient-clearing operation is issued during the validation
phase, refuting "no gradient-clearing operation is issued" there. -/
theorem c6_counterexample_zero_grad_in_validation :
    (train_model cNet cStep () cModel cCfg).events.countP
      (isZeroGrad Phase.validation) ≠ 0 := by
  decide

/-- C6 (amended): `optimizer.zero_grad()` is issued once per batch in both
phases: over a completed run, the number of gradient-clearing operations
in the training phase is `num_epochs * (number of training batches)` and
in the validation phase `num_epochs * (number of validation batches)`. -/
theorem c6_zero_grad_every_batch_both_phases {P G I : Type} (net : P → I → List ℚ)
    (step : Nat → P → Batch I → P × G) (zeroG : G) (m0 : ModelState P G)
    (cfg : TrainParams I) (hc : 1 ≤ cfg.check_point) :
    (train_model net step zeroG m0 cfg).events.countP (isZeroGrad Phase.train) =
      cfg.num_epochs * cfg.train_loader.length ∧
    (train_model net step zeroG m0 cfg).events.countP (isZeroGrad Phase.validation) =
      cfg.num_epochs * cfg.validation_loader.length := by
  have hc' : cfg.check_point ≠ 0 := by omega
  constructor
  · have h := train_model_countP net step zeroG m0 cfg hc'
      (isZeroGrad Phase.train) (fun e path s => rfl)
    rw [h, trainPhaseEvents_countP, valPhaseEvents_countP]
    simp [isZeroGrad]
  · have h := train_model_countP net step zeroG m0 cfg hc'
      (isZeroGrad Phase.validation) (fun e path s => rfl)
    rw [h, trainPhaseEvents_countP, valPhaseEvents_countP]
    simp [isZeroGrad]

/-- C6, witness: the amended statement at a concrete run with one batch
per feed and one epoch. -/
theorem c6_zero_grad_every_batch_both_phases_witness :
    (train_model cNet cStep () cModel cCfg).events.countP (isZeroGrad Phase.train) =
      cCfg.num_epochs * cCfg.train_loader.length ∧
    (train_model cNet cStep () cModel cCfg).events.countP (isZeroGrad Phase.validation) =
      cCfg.num_epochs * cCfg.validation_loader.length :=
  c6_zero_grad_every_batch_both_phases cNet cStep () cModel cCfg (by decide)

/-! ### Claim C9 -/

/-- C9, counterexample: a concrete one-epoch run performs 3 full passes
over the validation feed (baseline evaluation, per-epoch validation
phase, final evaluation), not 1. -/
theorem c9_counterexample_val_passes_exceed_epochs :
    ¬ ((train_model cNet cStep () cModel cCfg).events.countP isValPass =
      cCfg.num_epochs) := by
  decide

/-- C9 (amended): a completed run of `train_model` with epoch count E and
checkpoint interval ≥ 1 performs exactly E full passes over the training
feed and exactly E + 2 full passes over the validation feed (the E
per-epoch validation phases plus the baseline and final `test_model`
evaluations). -/
theorem c9_feed_pass_counts {P G I : Type} (net : P → I → List ℚ)
    (step : Nat → P → Batch I → P × G) (zeroG : G) (m0 : ModelState P G)
    (cfg : TrainParams I) (hc : 1 ≤ cfg.check_point) :
    (train_model net step zeroG m0 cfg).events.countP isTrainPass = cfg.num_epochs ∧
    (train_model net step zeroG m0 cfg).events.countP isValPass =
      cfg.num_epochs + 2 := by
  have hc' : cfg.check_point ≠ 0 := by omega
  constructor
  · have h := train_model_countP net step zeroG m0 cfg hc' isTrainPass
      (fun e path s => rfl)
    rw [h, trainPhaseEvents_countP, valPhaseEvents_countP]
    simp [isTrainPass]
  · have h := train_model_countP net step zeroG m0 cfg hc' isValPass
      (fun e path s => rfl)
    rw [h, trainPhaseEvents_countP, valPhaseEvents_countP]
    simp [isValPass]
    omega

/-- C9, witness: the amended pass counts at a concrete one-epoch run. -/
theorem c9_feed_pass_counts_witness :
    (train_model cNet cStep () cModel cCfg).events.countP isTrainPass =
      cCfg.num_epochs ∧
    (train_model cNet cStep () cModel cCfg).events.countP isValPass =
      cCfg.num_epochs + 2 :=
  c9_feed_pass_counts cNet cStep () cModel cCfg (by decide)

/-! ### Claim C10 -/

/-- C10: with checkpoint interval 0 and at least one epoch, the run
aborts with the modulo-by-zero error when evaluating the checkpoint
condition at the end of the first epoch: both phases of epoch 0 complete
(one training-feed pass; the baseline plus one validation-phase pass),
and no checkpoint file is ever written. -/
theorem c10_checkpoint_interval_zero_aborts {P G I : Type} (net : P → I → List ℚ)
    (step : Nat → P → Batch I → P × G) (zeroG : G) (m0 : ModelState P G)
    (cfg : TrainParams I) (hc : cfg.check_point = 0) (hE : 1 ≤ cfg.num_epochs) :
    (train_model net step zeroG m0 cfg).error = some TrainError.modByZero ∧
    (train_model net step zeroG m0 cfg).events.countP isCheckpointEv = 0 ∧
    (train_model net step zeroG m0 cfg).events.countP isTrainPass = 1 ∧
    (train_model net step zeroG m0 cfg).events.countP isValPass = 2 := by
  obtain ⟨n, hn⟩ : ∃ n, cfg.num_epochs = n + 1 := ⟨cfg.num_epochs - 1, by omega⟩
  have hs := epochStep_error_of_zero net step zeroG cfg hc 0 (initState net cfg m0)
  have hrun : runEpochs net step zeroG cfg 0 cfg.num_epochs (initState net cfg m0) =
      epochStep net step zeroG cfg 0 (initState net cfg m0) := by
    rw [hn]
    exact runEpochs_succ_of_some net step zeroG cfg 0 n _ TrainError.modByZero hs
  have hres : train_model net step zeroG m0 cfg =
      epochStep net step zeroG cfg 0 (initState net cfg m0) := by
    rw [train_model_eq, hrun, hs]
  have hev := epochStep_events_of_zero net step zeroG cfg hc 0 (initState net cfg m0)
  rw [hres, hev]
  refine ⟨hs, ?_, ?_, ?_⟩
  · rw [List.countP_append, List.countP_append, trainPhaseEvents_countP,
      valPhaseEvents_countP]
    simp [initState, isCheckpointEv]
  · rw [List.countP_append, List.countP_append, trainPhaseEvents_countP,
      valPhaseEvents_countP]
    simp [initState, isTrainPass]
  · rw [List.countP_append, List.countP_append, trainPhaseEvents_countP,
      valPhaseEvents_countP]
    simp [initState, isValPass]

/-- C10, witness: the abort behavior at a concrete run with checkpoint
interval 0 and one configured epoch. -/
theorem c10_checkpoint_interval_zero_aborts_witness :
    (train_model cNet cStep () cModel { cCfg with check_point := 0 }).error =
      some TrainError.modByZero ∧
    (train_model cNet cStep () cModel
      { cCfg with check_point := 0 }).events.countP isCheckpointEv = 0 ∧
    (train_model cNet cStep () cModel
      { cCfg with check_point := 0 }).events.countP isTrainPass = 1 ∧
    (train_model cNet cStep () cModel
      { cCfg with check_point := 0 }).events.countP isValPass = 2 :=
  c10_checkpoint_interval_zero_aborts cNet cStep () cModel
    { cCfg with check_point := 0 } rfl (by decide)

/-! ### Claims C5, C7, C8 -/

theorem foldl_batchCorrect_go {P I : Type} (net : P → I → List ℚ) (p : P) :
    ∀ (feed : Feed I) (c : Nat),
      feed.foldl (fun c b => c + batchCorrect net p b) c =
        c + feed.flatten.countP (itemCorrect net p) := by
  intro feed
  induction feed with
  | nil => intro c; simp
  | cons b bs ih =>
    intro c
    rw [List.foldl_cons, ih, List.flatten_cons, List.countP_append, batchCorrect]
    ring

/-- C5: over any validation feed whose batches together hold the N items
of the dataset, a model correctly classifying exactly k of them makes
`test_model` return k/N (accumulated per-batch correct counts equal the
correct count over all items, then one division by the dataset size). -/
theorem c5_test_model_accuracy {P G I : Type} (net : P → I → List ℚ)
    (cfg : TrainParams I) (m : ModelState P G) (N k : Nat)
    (hN : cfg.validation_dataset_len = N)
    (henum : (cfg.validation_loader.map List.length).sum = N)
    (hk : cfg.validation_loader.flatten.countP (itemCorrect net m.params) = k) :
    (test_model net cfg m).1 = (k : ℚ) / (N : ℚ) := by
  have h1 : cfg.validation_loader.foldl (fun c b => c + batchCorrect net m.params b) 0 =
      cfg.validation_loader.flatten.countP (itemCorrect net m.params) := by
    simpa using foldl_batchCorrect_go net m.params cfg.validation_loader 0
  show ((cfg.validation_loader.foldl (fun c b => c + batchCorrect net m.params b) 0 : Nat) : ℚ) /
      (cfg.validation_dataset_len : ℚ) = (k : ℚ) / (N : ℚ)
  rw [h1, hk, hN]

/-- C5, witness: the spec's scenario — one batch of 4 images with labels
`[0, 0, 1, 1]` and a model always predicting class 0 gives accuracy 1/2. -/
theorem c5_test_model_accuracy_witness : (test_model cNet cCfg cModel).1 = 1 / 2 := by
  rw [c5_test_model_accuracy cNet cCfg cModel 4 2 rfl (by decide) (by decide)]
  norm_num

/-- C7, counterexample: `test_model` sets the model's mode flag to eval
(`model.to(device).eval()`), so on a model that was in training mode the
observable model state after the call differs from the state before. -/
theorem c7_counterexample_mode_mutated : (test_model cNet cCfg cModel).2 ≠ cModel := by
  decide

/-- C7 (amended): `test_model` leaves the model's parameter values and
accumulated gradients unchanged and has no other effect on its inputs,
but it does set the model's train/eval mode flag to eval. -/
theorem c7_test_model_frame {P G I : Type} (net : P → I → List ℚ)
    (cfg : TrainParams I) (m : ModelState P G) :
    (test_model net cfg m).2.params = m.params ∧
    (test_model net cfg m).2.grads = m.grads ∧
    (test_model net cfg m).2.mode = Mode.eval :=
  ⟨rfl, rfl, rfl⟩

/-- C8: two successive invocations of `test_model` on the same feed, the
second on the model object left behind by the first, return the same
accuracy value. -/
theorem c8_test_model_deterministic {P G I : Type} (net : P → I → List ℚ)
    (cfg : TrainParams I) (m : ModelState P G) :
    (test_model net cfg (test_model net cfg m).2).1 = (test_model net cfg m).1 :=
  rfl

/-! ### Best-tracking invariant -/

theorem mem_of_getLast?_eq {α : Type} {l : List α} {a : α} (h : l.getLast? = some a) :
    a ∈ l := by
  obtain ⟨hne, hx⟩ := List.mem_getLast?_eq_getLast (l := l) (x := a) h
  rw [hx]
  exact List.getLast_mem hne

theorem lt_of_getElem?_eq_some {α : Type} {l : List α} {n : Nat} {a : α}
    (h : l[n]? = some a) : n < l.length := by
  by_contra hn
  rw [List.getElem?_eq_none (by omega)] at h
  cases h

theorem runInv_update {P G I : Type} (net : P → I → List ℚ) (cfg : TrainParams I)
    (st st' : TState P G) (q : P) (h : RunInv net cfg st)
    (hb : st'.best_accuracy =
      (bestUpd (st.best_accuracy, st.best_model) (valAcc net cfg q) q).1)
    (hm : st'.best_model =
      (bestUpd (st.best_accuracy, st.best_model) (valAcc net cfg q) q).2)
    (hh : st'.bestHist =
      st.bestHist ++ [bestUpd (st.best_accuracy, st.best_model) (valAcc net cfg q) q])
    (hv : st'.valPhases = st.valPhases ++ [(valAcc net cfg q, q)]) :
    RunInv net cfg st' := by
  obtain ⟨hlast, hchain, hbh, hvp, hlen, hrule⟩ := h
  have hmem : (st.best_accuracy, st.best_model) ∈ st.bestHist := mem_of_getLast?_eq hlast
  have hBfst : st.best_accuracy ≤
      (bestUpd (st.best_accuracy, st.best_model) (valAcc net cfg q) q).1 := by
    unfold bestUpd
    split
    · next hlt => exact le_of_lt hlt
    · exact le_refl _
  have hBval : valAcc net cfg
      (bestUpd (st.best_accuracy, st.best_model) (valAcc net cfg q) q).2 =
      (bestUpd (st.best_accuracy, st.best_model) (valAcc net cfg q) q).1 := by
    unfold bestUpd
    split
    · rfl
    · exact hbh _ hmem
  refine ⟨?_, ?_, ?_, ?_, ?_, ?_⟩
  · rw [hh, hb, hm]
    simp [List.getLast?_concat]
  · rw [hh, List.chain'_append]
    refine ⟨hchain, List.chain'_singleton _, ?_⟩
    intro x hx y hy
    rw [hlast] at hx
    simp at hx hy
    rw [← hx, ← hy]
    simpa using hBfst
  · rw [hh]
    intro x hx
    rcases List.mem_append.mp hx with hx | hx
    · exact hbh x hx
    · simp at hx
      rw [hx]
      exact hBval
  · rw [hv]
    intro x hx
    rcases List.mem_append.mp hx with hx | hx
    · exact hvp x hx
    · simp at hx
      rw [hx]
  · rw [hh, hv]
    simp [hlen]
  · rw [hh, hv]
    intro i b b' v h1 h2 h3
    by_cases hi1 : i + 1 < st.bestHist.length
    · rw [List.getElem?_append_left (by omega)] at h1
      rw [List.getElem?_append_left hi1] at h2
      rw [List.getElem?_append_left (by omega)] at h3
      exact hrule i b b' v h1 h2 h3
    · by_cases hi2 : i + 1 = st.bestHist.length
      · have h1' : b = (st.best_accuracy, st.best_model) := by
          rw [List.getElem?_append_left (by omega)] at h1
          have hg := hlast
          rw [List.getLast?_eq_getElem?,
            show st.bestHist.length - 1 = i by omega, h1] at hg
          exact Option.some.inj hg
        have h2' : b' = bestUpd (st.best_accuracy, st.best_model) (valAcc net cfg q) q := by
          rw [show i + 1 = st.bestHist.length from hi2,
            List.getElem?_concat_length] at h2
          exact (Option.some.inj h2).symm
        have h3' : v = (valAcc net cfg q, q) := by
          rw [show i = st.valPhases.length by omega,
            List.getElem?_concat_length] at h3
          exact (Option.some.inj h3).symm
        rw [h1', h2', h3']
        rfl
      · exfalso
        have hnone : (st.bestHist ++
            [bestUpd (st.best_accuracy, st.best_model) (valAcc net cfg q) q])[i + 1]? =
            none := by
          apply List.getElem?_eq_none
          simp
          omega
        rw [h2] at hnone
        cases hnone

theorem epochCore_inv {P G I : Type} (net : P → I → List ℚ)
    (step : Nat → P → Batch I → P × G) (zeroG : G) (cfg : TrainParams I) (e : Nat)
    (st : TState P G) (h : RunInv net cfg st) :
    RunInv net cfg (epochCore net step zeroG cfg e st) :=
  runInv_update net cfg st _
    (valPhaseModel cfg.validation_loader
      (trainPhaseModel step e cfg.train_loader st.model zeroG) zeroG).params
    h rfl rfl rfl rfl

theorem epochStep_inv {P G I : Type} (net : P → I → List ℚ)
    (step : Nat → P → Batch I → P × G) (zeroG : G) (cfg : TrainParams I) (e : Nat)
    (st : TState P G) (h : RunInv net cfg st) :
    RunInv net cfg (epochStep net step zeroG cfg e st) := by
  have hcore := epochCore_inv net step zeroG cfg e st h
  unfold RunInv at hcore ⊢
  rw [epochStep_best_accuracy, epochStep_best_model, epochStep_bestHist,
    epochStep_valPhases]
  exact hcore

theorem initState_inv {P G I : Type} (net : P → I → List ℚ) (cfg : TrainParams I)
    (m0 : ModelState P G) : RunInv net cfg (initState net cfg m0) := by
  refine ⟨rfl, ?_, ?_, ?_, rfl, ?_⟩
  · exact List.chain'_singleton _
  · intro x hx
    simp [initState] at hx
    rw [hx]
    rfl
  · intro x hx
    simp [initState] at hx
  · intro i b b' v h1 h2 h3
    simp [initState] at h3

theorem runEpochs_inv {P G I : Type} (net : P → I → List ℚ)
    (step : Nat → P → Batch I → P × G) (zeroG : G) (cfg : TrainParams I) :
    ∀ n a (st : TState P G), RunInv net cfg st →
      RunInv net cfg (runEpochs net step zeroG cfg a n st) := by
  intro n
  induction n with
  | zero => intro a st h; simpa [runEpochs] using h
  | succ n ih =>
    intro a st h
    cases herr : (epochStep net step zeroG cfg a st).error with
    | some err =>
      rw [runEpochs_succ_of_some net step zeroG cfg a n st err herr]
      exact epochStep_inv net step zeroG cfg a st h
    | none =>
      rw [runEpochs_succ_of_none net step zeroG cfg a n st herr]
      exact ih (a + 1) _ (epochStep_inv net step zeroG cfg a st h)

theorem train_model_inv {P G I : Type} (net : P → I → List ℚ)
    (step : Nat → P → Batch I → P × G) (zeroG : G) (m0 : ModelState P G)
    (cfg : TrainParams I) : RunInv net cfg (train_model net step zeroG m0 cfg) := by
  have h := runEpochs_inv net step zeroG cfg cfg.num_epochs 0 (initState net cfg m0)
    (initState_inv net cfg m0)
  rw [train_model_eq]
  cases herr : (runEpochs net step zeroG cfg 0 cfg.num_epochs (initState net cfg m0)).error with
  | some err => exact h
  | none => exact h

theorem epochCore_bestHist {P G I : Type} (net : P → I → List ℚ)
    (step : Nat → P → Batch I → P × G) (zeroG : G) (cfg : TrainParams I) (e : Nat)
    (st : TState P G) :
    (epochCore net step zeroG cfg e st).bestHist =
      st.bestHist ++ [bestUpd (st.best_accuracy, st.best_model)
        (valAcc net cfg (valPhaseModel cfg.validation_loader
          (trainPhaseModel step e cfg.train_loader st.model zeroG) zeroG).params)
        (valPhaseModel cfg.validation_loader
          (trainPhaseModel step e cfg.train_loader st.model zeroG) zeroG).params] :=
  rfl

theorem runEpochs_bestHist_ext {P G I : Type} (net : P → I → List ℚ)
    (step : Nat → P → Batch I → P × G) (zeroG : G) (cfg : TrainParams I) :
    ∀ n a (st : TState P G), ∃ ext,
      (runEpochs net step zeroG cfg a n st).bestHist = st.bestHist ++ ext := by
  intro n
  induction n with
  | zero => intro a st; exact ⟨[], by simp [runEpochs]⟩
  | succ n ih =>
    intro a st
    cases herr : (epochStep net step zeroG cfg a st).error with
    | some err =>
      refine ⟨[bestUpd (st.best_accuracy, st.best_model)
        (valAcc net cfg (valPhaseModel cfg.validation_loader
          (trainPhaseModel step a cfg.train_loader st.model zeroG) zeroG).params)
        (valPhaseModel cfg.validation_loader
          (trainPhaseModel step a cfg.train_loader st.model zeroG) zeroG).params], ?_⟩
      rw [runEpochs_succ_of_some net step zeroG cfg a n st err herr,
        epochStep_bestHist, epochCore_bestHist]
    | none =>
      obtain ⟨ext, hext⟩ := ih (a + 1) (epochStep net step zeroG cfg a st)
      refine ⟨bestUpd (st.best_accuracy, st.best_model)
        (valAcc net cfg (valPhaseModel cfg.validation_loader
          (trainPhaseModel step a cfg.train_loader st.model zeroG) zeroG).params)
        (valPhaseModel cfg.validation_loader
          (trainPhaseModel step a cfg.train_loader st.model zeroG) zeroG).params :: ext, ?_⟩
      rw [runEpochs_succ_of_none net step zeroG cfg a n st herr, hext,
        epochStep_bestHist, epochCore_bestHist, List.append_assoc]
      rfl

theorem train_model_bestHist {P G I : Type} (net : P → I → List ℚ)
    (step : Nat → P → Batch I → P × G) (zeroG : G) (m0 : ModelState P G)
    (cfg : TrainParams I) :
    (train_model net step zeroG m0 cfg).bestHist =
      (runEpochs net step zeroG cfg 0 cfg.num_epochs (initState net cfg m0)).bestHist := by
  rw [train_model_eq]
  cases herr : (runEpochs net step zeroG cfg 0 cfg.num_epochs (initState net cfg m0)).error with
  | some err => rfl
  | none => rfl

theorem best_rule_bound_attained {P : Type} (bh vp : List (ℚ × P))
    (hlen : bh.length = vp.length + 1)
    (hrule : ∀ i b b' v, bh[i]? = some b → bh[i + 1]? = some b' → vp[i]? = some v →
      b' = if b.1 < v.1 then v else b) :
    ∀ i b, bh[i]? = some b →
      (∀ w ∈ vp.take i, w.1 ≤ b.1) ∧ (bh[0]? = some b ∨ b ∈ vp.take i) := by
  intro i
  induction i with
  | zero =>
    intro b h0
    exact ⟨by simp, Or.inl h0⟩
  | succ i ih =>
    intro b' h2
    have hib : i + 1 < bh.length := lt_of_getElem?_eq_some h2
    have hi : i < bh.length := by omega
    have hvi : i < vp.length := by omega
    have hb : bh[i]? = some bh[i] := List.getElem?_eq_getElem hi
    have hv : vp[i]? = some vp[i] := List.getElem?_eq_getElem hvi
    have hr := hrule i bh[i] b' vp[i] hb h2 hv
    obtain ⟨ihb, iha⟩ := ih bh[i] hb
    have htake : vp.take (i + 1) = vp.take i ++ [vp[i]] := by
      rw [List.take_succ, hv]
      rfl
    have hge : bh[i].1 ≤ b'.1 := by
      rw [hr]
      split
      · next hlt => exact le_of_lt hlt
      · exact le_refl _
    constructor
    · intro w hw
      rw [htake] at hw
      rcases List.mem_append.mp hw with hw | hw
      · exact le_trans (ihb w hw) hge
      · simp at hw
        rw [hw, hr]
        split
        · exact le_refl _
        · next hlt => exact le_of_not_lt hlt
    · rw [htake, hr]
      split
      · exact Or.inr (List.mem_append.mpr (Or.inr (by simp)))
      · rcases iha with h | h
        · exact Or.inl h
        · exact Or.inr (List.mem_append.mpr (Or.inl h))

/-! ### Claim C2 -/

/-- C2: within a single `train_model` run, the sequence of values taken by
the tracked best accuracy — the pre-training baseline from `test_model`
followed by its value after each epoch's validation phase — is
monotonically non-decreasing. -/
theorem c2_best_accuracy_monotone {P G I : Type} (net : P → I → List ℚ)
    (step : Nat → P → Batch I → P × G) (zeroG : G) (m0 : ModelState P G)
    (cfg : TrainParams I) :
    List.Chain' (· ≤ ·) ((train_model net step zeroG m0 cfg).bestHist.map Prod.fst) := by
  have h := (train_model_inv net step zeroG m0 cfg).2.1
  rw [List.chain'_map]
  exact h

/-! ### Claim C3 -/

/-- C3: in every run, the recorded (best accuracy, best snapshot) pairs
start at the baseline (accuracy of the initial parameters, initial
parameters); every recorded snapshot has exactly its recorded accuracy as
validation accuracy; after each validation measurement the pair is
replaced exactly when the measured accuracy strictly exceeds the current
best, and then by the measurement and the current parameters; and each
recorded best accuracy bounds every measurement made so far and is
attained by the baseline or one of those measurements. -/
theorem c3_best_snapshot_invariant {P G I : Type} (net : P → I → List ℚ)
    (step : Nat → P → Batch I → P × G) (zeroG : G) (m0 : ModelState P G)
    (cfg : TrainParams I) :
    (train_model net step zeroG m0 cfg).bestHist[0]? =
      some (valAcc net cfg m0.params, m0.params) ∧
    (train_model net step zeroG m0 cfg).bestHist.length =
      (train_model net step zeroG m0 cfg).valPhases.length + 1 ∧
    (∀ x ∈ (train_model net step zeroG m0 cfg).bestHist, valAcc net cfg x.2 = x.1) ∧
    (∀ i b b' v, (train_model net step zeroG m0 cfg).bestHist[i]? = some b →
      (train_model net step zeroG m0 cfg).bestHist[i + 1]? = some b' →
      (train_model net step zeroG m0 cfg).valPhases[i]? = some v →
      b' = if b.1 < v.1 then v else b) ∧
    (∀ i b, (train_model net step zeroG m0 cfg).bestHist[i]? = some b →
      (∀ w ∈ (train_model net step zeroG m0 cfg).valPhases.take i, w.1 ≤ b.1) ∧
      ((train_model net step zeroG m0 cfg).bestHist[0]? = some b ∨
        b ∈ (train_model net step zeroG m0 cfg).valPhases.take i)) := by
  obtain ⟨hlast, hchain, hbh, hvp, hlen, hrule⟩ := train_model_inv net step zeroG m0 cfg
  have h0 : (train_model net step zeroG m0 cfg).bestHist[0]? =
      some (valAcc net cfg m0.params, m0.params) := by
    obtain ⟨ext, hext⟩ := runEpochs_bestHist_ext net step zeroG cfg cfg.num_epochs 0
      (initState net cfg m0)
    rw [train_model_bestHist, hext,
      List.getElem?_append_left (by simp [initState])]
    rfl
  exact ⟨h0, hlen, hbh, hrule,
    best_rule_bound_attained _ _ hlen hrule⟩

/-- C3, witness: on a concrete one-epoch run the recorded pair after the
first validation phase follows the strict-improvement update rule applied
to the baseline pair and the first measurement. -/
theorem c3_best_snapshot_invariant_witness :
    (train_model cNet cStep () cModel cCfg).bestHist[1]? =
      some (if ((1 : ℚ) / 2, (0 : ℤ)).1 < ((1 : ℚ) / 2, (1 : ℤ)).1
        then ((1 : ℚ) / 2, (1 : ℤ)) else ((1 : ℚ) / 2, (0 : ℤ))) := by
  have h := c3_best_snapshot_invariant cNet cStep () cModel cCfg
  have hacc0 : valAcc cNet cCfg cModel.params = 1 / 2 := by
    show ((2 : ℕ) : ℚ) / ((4 : ℕ) : ℚ) = 1 / 2
    norm_num
  have hacc1 : valAcc cNet cCfg (1 : ℤ) = 1 / 2 := by
    show ((2 : ℕ) : ℚ) / ((4 : ℕ) : ℚ) = 1 / 2
    norm_num
  have h1 : (train_model cNet cStep () cModel cCfg).bestHist[0]? =
      some ((1 : ℚ) / 2, (0 : ℤ)) := by
    rw [h.1, hacc0]
    rfl
  have h2 : (train_model cNet cStep () cModel cCfg).bestHist[1]? =
      some ((1 : ℚ) / 2, (0 : ℤ)) := by
    show some (bestUpd (valAcc cNet cCfg cModel.params, cModel.params)
      (valAcc cNet cCfg (1 : ℤ)) (1 : ℤ)) = some ((1 : ℚ) / 2, (0 : ℤ))
    rw [hacc0, hacc1]
    simp [bestUpd, cModel]
  have h3 : (train_model cNet cStep () cModel cCfg).valPhases[0]? =
      some ((1 : ℚ) / 2, (1 : ℤ)) := by
    show some (valAcc cNet cCfg (1 : ℤ), (1 : ℤ)) = some ((1 : ℚ) / 2, (1 : ℤ))
    rw [hacc1]
  have hr := h.2.2.2.1 0 ((1 : ℚ) / 2, (0 : ℤ)) ((1 : ℚ) / 2, (0 : ℤ))
    ((1 : ℚ) / 2, (1 : ℤ)) h1 h2 h3
  rw [← hr]
  exact h2

/-! ### Claim C4 -/

theorem runEpochs_ckpts {P G I : Type} (net : P → I → List ℚ)
    (step : Nat → P → Batch I → P × G) (zeroG : G) (cfg : TrainParams I)
    (hc : cfg.check_point ≠ 0) :
    ∀ n a (st : TState P G), st.error = none → st.bestHist.length = a + 1 →
      (∀ x ∈ ckpts st.events, ckptGood cfg st x) →
      (runEpochs net step zeroG cfg a n st).bestHist.length = a + n + 1 ∧
      (ckpts (runEpochs net step zeroG cfg a n st).events).map Prod.fst =
        (ckpts st.events).map Prod.fst ++
          (List.range' a n).filter
            (fun e => decide (e % cfg.check_point = 0 ∨ e = cfg.num_epochs - 1)) ∧
      (∀ x ∈ ckpts (runEpochs net step zeroG cfg a n st).events,
        ckptGood cfg (runEpochs net step zeroG cfg a n st) x) := by
  intro n
  induction n with
  | zero =>
    intro a st herr hlen hgood
    simp only [runEpochs]
    exact ⟨by omega, by simp, hgood⟩
  | succ n ih =>
    intro a st herr hlen hgood
    have herr' : (epochStep net step zeroG cfg a st).error = none := by
      rw [epochStep_error_of_ne net step zeroG cfg hc a st, herr]
    have hbh' := epochCore_bestHist net step zeroG cfg a st
    rw [← epochStep_bestHist] at hbh'
    have hlen' : (epochStep net step zeroG cfg a st).bestHist.length = (a + 1) + 1 := by
      rw [hbh']
      simp [hlen]
    have hck := epochStep_ckpts net step zeroG cfg hc a st
    have hgood' : ∀ x ∈ ckpts (epochStep net step zeroG cfg a st).events,
        ckptGood cfg (epochStep net step zeroG cfg a st) x := by
      intro x hx
      rw [hck] at hx
      rcases List.mem_append.mp hx with hx | hx
      · obtain ⟨hpath, b, hb⟩ := hgood x hx
        refine ⟨hpath, b, ?_⟩
        rw [hbh', List.getElem?_append_left (lt_of_getElem?_eq_some hb)]
        exact hb
      · by_cases hcond : a % cfg.check_point = 0 ∨ a = cfg.num_epochs - 1
        · rw [if_pos hcond] at hx
          simp at hx
          rw [hx]
          refine ⟨rfl, (epochCore net step zeroG cfg a st).best_accuracy, ?_⟩
          rw [hbh', show a + 1 = st.bestHist.length from hlen.symm,
            List.getElem?_concat_length]
          rfl
        · rw [if_neg hcond] at hx
          simp at hx
    obtain ⟨ihl, ihm, ihg⟩ := ih (a + 1) (epochStep net step zeroG cfg a st) herr'
      hlen' hgood'
    rw [runEpochs_succ_of_none net step zeroG cfg a n st herr']
    refine ⟨by rw [ihl]; omega, ?_, ihg⟩
    rw [ihm, hck, List.map_append]
    have hr : List.range' a (n + 1) = a :: List.range' (a + 1) n := rfl
    rw [hr, List.filter_cons]
    by_cases hcond : a % cfg.check_point = 0 ∨ a = cfg.num_epochs - 1
    · rw [if_pos hcond, if_pos (by simpa using hcond)]
      simp
    · rw [if_neg hcond, if_neg (by simpa using hcond)]
      simp

/-- C4: during a run with at least one epoch and checkpoint interval
c ≥ 1, checkpoint writes happen exactly at the epoch indices e < E with
e mod c = 0 or e = E − 1 (in order, one write each), and every write
targets the single path `state_dict_path + description + '.pt'` and
stores the best snapshot recorded at the end of its epoch — so later
writes to the same path overwrite earlier ones. -/
theorem c4_checkpoint_schedule {P G I : Type} (net : P → I → List ℚ)
    (step : Nat → P → Batch I → P × G) (zeroG : G) (m0 : ModelState P G)
    (cfg : TrainParams I) (hE : 1 ≤ cfg.num_epochs) (hc : 1 ≤ cfg.check_point) :
    ((ckpts (train_model net step zeroG m0 cfg).events).map Prod.fst =
      (List.range cfg.num_epochs).filter
        (fun e => decide (e % cfg.check_point = 0 ∨ e = cfg.num_epochs - 1))) ∧
    (∀ x ∈ ckpts (train_model net step zeroG m0 cfg).events,
      ckptGood cfg (train_model net step zeroG m0 cfg) x) := by
  have hc' : cfg.check_point ≠ 0 := by omega
  have herr := runEpochs_error net step zeroG cfg hc' cfg.num_epochs 0
    (initState net cfg m0) rfl
  obtain ⟨hl, hm, hg⟩ := runEpochs_ckpts net step zeroG cfg hc' cfg.num_epochs 0
    (initState net cfg m0) rfl rfl
    (by intro x hx; simp [initState, ckpts, ckptData?] at hx)
  have hev : (train_model net step zeroG m0 cfg).events =
      (runEpochs net step zeroG cfg 0 cfg.num_epochs (initState net cfg m0)).events ++
        [Ev.valFeedPass] := by
    rw [train_model_eq, herr]
  have h0 : ckpts (P := P) [Ev.valFeedPass] = [] := rfl
  have h1 : ckpts (initState net cfg m0 (G := G)).events = [] := rfl
  constructor
  · rw [hev, ckpts_append, h0, List.append_nil, hm, h1]
    simp [List.range_eq_range']
  · intro x hx
    rw [hev, ckpts_append, h0, List.append_nil] at hx
    obtain ⟨hpath, b, hb⟩ := hg x hx
    refine ⟨hpath, b, ?_⟩
    rw [train_model_bestHist]
    exact hb

/-- C4, witness: the checkpoint schedule at a concrete one-epoch run with
checkpoint interval 1. -/
theorem c4_checkpoint_schedule_witness :
    ((ckpts (train_model cNet cStep () cModel cCfg).events).map Prod.fst =
      (List.range cCfg.num_epochs).filter
        (fun e => decide (e % cCfg.check_point = 0 ∨ e = cCfg.num_epochs - 1))) ∧
    (∀ x ∈ ckpts (train_model cNet cStep () cModel cCfg).events,
      ckptGood cCfg (train_model cNet cStep () cModel cCfg) x) :=
  c4_checkpoint_schedule cNet cStep () cModel cCfg (by decide) (by decide)

end CIFAR10
